import Mathlib

/-!
Verification development for the qernel client SDK.

We shallowly embed the streaming transcript aggregator
(src/qernel/core/client/client.py), the event model
(src/qernel/core/client/models.py), the task summarizer
(src/qernel/core/client/task_summary.py), the warm-up indicator
(src/qernel/vis/terminal.py and the _Warmup helper in client.py) and the
retry/backoff loops, and prove properties of the embedding.

Dynamic Python values (JSON payloads, event dicts) are modelled by the
inductive type JVal; Python dicts are insertion-ordered association lists
with Python dict.update semantics.  External library primitives
(base64/utf-8/json decoding, the HTTP transport, pydantic datetime
parsing) are modelled as oracle parameters or abstracted where noted in
the individual doc comments.  Wall-clock time is an abstract tick for the
aggregator and an exact rational clock for the retry loops.
-/

namespace Qernel

/-- Dynamic JSON-like value, modelling the loosely typed payloads the
client passes around (Python dict / list / str / number / bool / None). -/
inductive JVal where
  | jnull
  | jbool (b : Bool)
  | jnum (q : ℚ)
  | jstr (s : String)
  | jarr (xs : List JVal)
  | jobj (fields : List (String × JVal))

/-- A Python dict: insertion-ordered association list. -/
abbrev JDict := List (String × JVal)

/-- Python d.get(k): first binding for k, if any. -/
def dget (d : JDict) (k : String) : Option JVal :=
  match d with
  | [] => none
  | (k0, v) :: rest => if k0 = k then some v else dget rest k

/-- Python d[k] = v: replace in place if the key exists, else append
(preserving insertion order, as CPython dicts do). -/
def dset (d : JDict) (k : String) (v : JVal) : JDict :=
  match d with
  | [] => [(k, v)]
  | (k0, v0) :: rest => if k0 = k then (k0, v) :: rest else (k0, v0) :: dset rest k v

/-- Python d.update(src): fold dset over the entries of src in order. -/
def dupdate (d : JDict) (src : JDict) : JDict :=
  src.foldl (fun acc kv => dset acc kv.1 kv.2) d

/-- Python truthiness of a JVal (None/False/0/empty string/empty
container are falsy). -/
def jtruthy : JVal → Bool
  | .jnull => false
  | .jbool b => b
  | .jnum q => if q = 0 then false else true
  | .jstr s => if s = "" then false else true
  | .jarr xs => !xs.isEmpty
  | .jobj fs => !fs.isEmpty

/-- Python str(v).  Only string payloads matter to the modelled code
paths; the rendering of containers is abstracted. -/
def jStr : JVal → String
  | .jnull => "None"
  | .jbool b => if b then "True" else "False"
  | .jnum q => toString q
  | .jstr s => s
  | .jarr _ => "[...]"
  | .jobj _ => "dict(...)"

/-- Python d.get(k) combined with an `is not None` test: absent keys and
null values both read as None. -/
def pyGetNonNull (d : JDict) (k : String) : Option JVal :=
  match dget d k with
  | some .jnull => none
  | some v => some v
  | none => none

/-- Python `a or b or dflt` over optional strings ("" is falsy). -/
def firstTruthyStr (xs : List (Option String)) (dflt : String) : String :=
  match xs with
  | [] => dflt
  | x :: rest =>
    match x with
    | some s => if s = "" then firstTruthyStr rest dflt else s
    | none => firstTruthyStr rest dflt

/-- Boolean test that pat occurs as a contiguous sublist of l. -/
def listHasInfix (pat : List Char) : List Char → Bool
  | [] => pat.isEmpty
  | c :: rest => pat.isPrefixOf (c :: rest) || listHasInfix pat rest

/-- Python `pat in s` substring containment. -/
def strContains (s pat : String) : Bool := listHasInfix pat.toList s.toList

/-- Python s.startswith(pre). -/
def strStartsWith (s pre : String) : Bool := pre.toList.isPrefixOf s.toList

/-- Python s.endswith(suf). -/
def strEndsWith (s suf : String) : Bool := suf.toList.reverse.isPrefixOf s.toList.reverse

/-- ASCII lower-casing of one character (Python str.lower restricted to
the ASCII range used by the fixed keyword vocabulary). -/
def asciiLowerChar (c : Char) : Char :=
  if 65 ≤ c.toNat ∧ c.toNat ≤ 90 then Char.ofNat (c.toNat + 32) else c

/-- Python s.lower(). -/
def pyLower (s : String) : String := String.mk (s.toList.map asciiLowerChar)

/-- Extensional equality of Python dicts (Python == on dicts ignores
insertion order). -/
def dictEquiv (d1 d2 : JDict) : Prop := ∀ k, dget d1 k = dget d2 k

/-! ## Task summarizer (src/qernel/core/client/task_summary.py)

A truthy pipeline step that is not a Mapping would raise AttributeError in
Python (`step.get` on a non-dict); such steps are treated as empty dicts
here and excluded by well-formedness hypotheses where they matter. -/

/-- Modelled from task_summary._get_pipeline: empty or missing analysis
gives [], a non-list pipeline entry gives []. -/
def getPipeline (analysis : Option JDict) : List JVal :=
  match analysis with
  | none => []
  | some a =>
    if a.isEmpty then []
    else
      match dget a "pipeline" with
      | some (.jarr xs) => xs
      | _ => []

/-- Python `(step or ...)` followed by .get: a dict reads as itself, a
falsy value as the empty dict (truthy non-dicts raise in Python; see the
section comment). -/
def stepOrEmpty : JVal → JDict
  | .jobj fs => fs
  | _ => []

/-- Modelled from task_summary._matches_any_keyword. -/
def matchesAnyKeyword (step : JVal) (keywords : List String) : Bool :=
  let name := pyLower (jStr ((dget (stepOrEmpty step) "name").getD (.jstr "")))
  keywords.any (fun kw => strContains name kw)

/-- Modelled from task_summary._slice_known_output_fields. -/
def sliceKnownOutputFields (out : JDict) : JDict :=
  let base : JDict :=
    match dget out "summary" with
    | some v => [("summary", v)]
    | none => []
  ["counts", "shots", "mitigated_value", "raw_value", "metrics"].foldl
    (fun acc key =>
      match dget out key with
      | some v => dset acc key v
      | none => acc) base

/-- Modelled from task_summary._collect_step_details_from_output. -/
def collectStepDetailsFromOutput (out : JDict) : JDict :=
  let details : JDict :=
    match dget out "summary" with
    | some (.jobj stepSum) =>
      ["t_count", "qubit_count", "depth", "op_counts", "mitigated_value"].foldl
        (fun acc key =>
          match dget stepSum key with
          | some v => dset acc key v
          | none => acc) []
    | _ => []
  let details :=
    ["mitigated_value", "raw_value"].foldl
      (fun acc key =>
        match pyGetNonNull out key with
        | some v => dset acc key v
        | none => acc) details
  let details :=
    match dget out "counts" with
    | some (.jobj cs) => dset details "counts" (.jobj cs)
    | _ => details
  match pyGetNonNull out "shots" with
  | some v => dset details "shots" v
  | none => details

/-- A task spec inferred from the build_circuit docstring. -/
structure TaskSpec where
  id : String
  title : String
  keywords : List String

/-- Modelled from task_summary.extract_task_specs_from_doc: three fixed
keyword groups checked in order resource, mitigation, simulation. -/
def extractTaskSpecsFromDoc (doc : Option String) : List TaskSpec :=
  match doc with
  | none => []
  | some d =>
    if d = "" then []
    else
      let text := pyLower d
      let specs : List TaskSpec := []
      let specs :=
        if strContains text "resource" || strContains text "estimate" then
          specs ++ [⟨"resource_estimation", "Resource Estimation",
            ["resource.qualtran", "qualtran", "resource", "estimate",
             "resource_estimation"]⟩]
        else specs
      let specs :=
        if strContains text "mitiq" || strContains text "zne" ||
            strContains text "error mitigation" then
          specs ++ [⟨"error_mitigation_zne", "Error Mitigation (Mitiq ZNE)",
            ["mitigation.mitiq.zne", "mitiq", "zne", "mitigation"]⟩]
        else specs
      let specs :=
        if strContains text "simulate" || strContains text "simulation" ||
            strContains text "histogram" || strContains text "shots" then
          specs ++ [⟨"simulation_histogram", "Simulation (Histogram)",
            ["execute.simulator", "simulator", "execute", "histogram",
             "counts", "shots"]⟩]
        else specs
      specs

/-- Modelled from task_summary.task_payload_slice. -/
def taskPayloadSlice (analysis : Option JDict) (keywords : List String) : JDict :=
  let matched := (getPipeline analysis).filter (fun step => matchesAnyKeyword step keywords)
  match matched with
  | [] => []
  | [step] =>
    let out :=
      match dget (stepOrEmpty step) "output" with
      | some v => if jtruthy v then v else .jobj []
      | none => .jobj []
    match out with
    | .jobj o =>
      let sliced := sliceKnownOutputFields o
      [("pipeline", .jarr [step]), ("output", if sliced.isEmpty then .jobj o else .jobj sliced)]
    | _ => [("pipeline", .jarr [step])]
  | _ => [("pipeline", .jarr matched)]

/-- Modelled from task_summary.task_details_from_analysis. -/
def taskDetailsFromAnalysis (analysis : Option JDict) (keywords : List String) : JDict :=
  (getPipeline analysis).foldl
    (fun details step =>
      if matchesAnyKeyword step keywords then
        let out :=
          match dget (stepOrEmpty step) "output" with
          | some v => if jtruthy v then v else .jobj []
          | none => .jobj []
        match out with
        | .jobj o => dupdate details (collectStepDetailsFromOutput o)
        | _ => details
      else details) []

/-- One rendered task summary entry. -/
structure TaskSummaryEntry where
  id : String
  title : String
  status : String
  details : JDict
  json : JDict

/-- Modelled from task_summary.summarize_tasks. -/
def summarizeTasks (buildDoc : Option String) (analysis : Option JDict) :
    List TaskSummaryEntry :=
  (extractTaskSpecsFromDoc buildDoc).map (fun spec =>
    let details := taskDetailsFromAnalysis analysis spec.keywords
    let payload := taskPayloadSlice analysis spec.keywords
    let status := if !details.isEmpty || !payload.isEmpty then "success" else "info"
    ⟨spec.id, spec.title, status, details, payload⟩)

/-! ## Event model (src/qernel/core/client/models.py)

Pydantic models become structures; model_validate becomes an explicit
Option-valued validator written from the declared field types (a none
result models a pydantic ValidationError, which subclasses ValueError).
Datetime parsing of the timestamp field is abstracted: a string or number
is accepted, anything else rejected. -/

/-- Modelled from models.MethodsPayload.  build_circuit_summary is
declared Optional[str] but the status handler later assigns it an
unvalidated Any, so it is carried as a JVal here; validation only ever
stores strings in it. -/
structure MethodsPayload where
  get_name_doc : String := ""
  get_type_doc : String := ""
  build_circuit_doc : String := ""
  validate_params_doc : String := ""
  get_name_result : Option String := none
  get_type_result : Option String := none
  build_circuit_summary : Option JVal := none
  build_circuit_type : Option String := none
  get_name_error : Option String := none
  get_type_error : Option String := none
  build_circuit_error : Option String := none
  validate_params_error : Option String := none

/-- Modelled from models.AlgorithmResponse. -/
structure AlgorithmResponse where
  class_ : String
  class_doc : String
  methods : MethodsPayload
  analysis : Option JDict := none

/-- Modelled from models.StreamEvent (timestamp omitted from the record:
it is parsed during validation but never read by the aggregator). -/
structure StreamEvent where
  type : String
  message : Option String := none
  stage : Option String := none
  error : Option String := none
  result : Option JVal := none
  summary : Option JVal := none
  obj_type : Option String := none
  response : Option AlgorithmResponse := none
  class_field : Option String := none

/-- Validation of an Optional[str] field: absent and null read as None, a
string reads as itself, anything else is a ValidationError. -/
def pyOptStrField (d : JDict) (k : String) : Option (Option String) :=
  match dget d k with
  | none => some none
  | some .jnull => some none
  | some (.jstr s) => some (some s)
  | some _ => none

/-- Validation of a str field with default "": absent reads as the
default, a string as itself, anything else (including null) is a
ValidationError. -/
def pyStrFieldD (d : JDict) (k : String) : Option String :=
  match dget d k with
  | none => some ""
  | some (.jstr s) => some s
  | some _ => none

/-- Modelled from pydantic validation of models.MethodsPayload. -/
def methodsPayloadValidate (d : JDict) : Option MethodsPayload := do
  let gnd ← pyStrFieldD d "get_name_doc"
  let gtd ← pyStrFieldD d "get_type_doc"
  let bcd ← pyStrFieldD d "build_circuit_doc"
  let vpd ← pyStrFieldD d "validate_params_doc"
  let gnr ← pyOptStrField d "get_name_result"
  let gtr ← pyOptStrField d "get_type_result"
  let bcs ← pyOptStrField d "build_circuit_summary"
  let bct ← pyOptStrField d "build_circuit_type"
  let gne ← pyOptStrField d "get_name_error"
  let gte ← pyOptStrField d "get_type_error"
  let bce ← pyOptStrField d "build_circuit_error"
  let vpe ← pyOptStrField d "validate_params_error"
  some
    { get_name_doc := gnd, get_type_doc := gtd, build_circuit_doc := bcd,
      validate_params_doc := vpd, get_name_result := gnr, get_type_result := gtr,
      build_circuit_summary := bcs.map JVal.jstr, build_circuit_type := bct,
      get_name_error := gne, get_type_error := gte, build_circuit_error := bce,
      validate_params_error := vpe }

/-- Modelled from pydantic validation of models.AlgorithmResponse
(populate_by_name: the class field may arrive under its alias "class" or
its field name "class_"). -/
def algorithmResponseValidate (d : JDict) : Option AlgorithmResponse := do
  let cls ←
    (match dget d "class" with
     | some (.jstr s) => some s
     | some _ => none
     | none =>
       match dget d "class_" with
       | some (.jstr s) => some s
       | _ => none : Option String)
  let cdoc ←
    (match dget d "class_doc" with
     | some (.jstr s) => some s
     | _ => none : Option String)
  let methods ←
    (match dget d "methods" with
     | some (.jobj md) => methodsPayloadValidate md
     | _ => none : Option MethodsPayload)
  let analysis ←
    (match dget d "analysis" with
     | none => some none
     | some .jnull => some none
     | some (.jobj a) => some (some a)
     | some _ => none : Option (Option JDict))
  some { class_ := cls, class_doc := cdoc, methods := methods, analysis := analysis }

/-- Modelled from pydantic validation of models.StreamEvent
(StreamEvent.model_validate): the type tag must be one of the five
literals; a failure models pydantic.ValidationError. -/
def streamEventValidate (d : JDict) : Option StreamEvent := do
  let tp ←
    (match dget d "type" with
     | some (.jstr t) =>
       if t = "start" ∨ t = "status" ∨ t = "error" ∨ t = "result" ∨ t = "done"
       then some t else none
     | _ => none : Option String)
  let msg ← pyOptStrField d "message"
  let stage ← pyOptStrField d "stage"
  let err ← pyOptStrField d "error"
  let res :=
    match dget d "result" with
    | none => none
    | some .jnull => none
    | some v => some v
  let summ :=
    match dget d "summary" with
    | none => none
    | some .jnull => none
    | some v => some v
  let ot ← pyOptStrField d "obj_type"
  let resp ←
    (match dget d "response" with
     | none => some none
     | some .jnull => some none
     | some (.jobj rd) => (algorithmResponseValidate rd).map some
     | some _ => none : Option (Option AlgorithmResponse))
  let cf ← pyOptStrField d "class"
  let _ts ←
    (match dget d "timestamp" with
     | none => some 0
     | some (.jstr _) => some 0
     | some (.jnum _) => some 0
     | some _ => none : Option Nat)
  some
    { type := tp, message := msg, stage := stage, error := err, result := res,
      summary := summ, obj_type := ot, response := resp, class_field := cf }

/-! ## Transcript aggregator (src/qernel/core/client/client.py)

datetime.utcnow() is modelled by an abstract tick passed to the run; the
to_jsonable snapshot (model_dump) is modelled by the transcript value
captured at raise time, which is exactly the data the JSON dump carries.
Terminal/GUI printing inside the handlers is presentation-only and is
modelled only where a claim observes it (the passthrough print of
_validate_or_print_passthrough, and the task-summary render). -/

/-- Modelled from models.AlgorithmTranscript (started_at is an abstract
origin tick; the TranscriptEvent wrapper is flattened away since it holds
nothing but the event). -/
structure AlgorithmTranscript where
  events : List StreamEvent := []
  response : Option AlgorithmResponse := none
  methods : MethodsPayload := {}
  class_name : Option String := none
  class_doc : Option String := none
  started_at : Nat := 0
  ended_at : Option Nat := none
  ended_reason : Option String := none

/-- Modelled from AlgorithmTranscript.add_event: append, and sync the
top-level fields when a result event carries a response. -/
def AlgorithmTranscript.addEvent (t : AlgorithmTranscript) (e : StreamEvent) :
    AlgorithmTranscript :=
  if e.type = "result" then
    match e.response with
    | some r =>
      { t with events := t.events ++ [e], response := some r, methods := r.methods,
               class_name := some r.class_, class_doc := some r.class_doc }
    | none => { t with events := t.events ++ [e] }
  else { t with events := t.events ++ [e] }

/-- Modelled from config.QernelAPIError: structured error carrying an
optional transcript snapshot. -/
structure QernelAPIErrorE where
  message : String
  status_code : Option Nat := none
  response_text : Option String := none
  transcript : Option AlgorithmTranscript := none

/-- External decoding primitives used by _decode_circuit_artifacts_in_place:
base64.b64decode (bytes as their numeric values), bytes.decode("utf-8") and
json.loads, each returning none on the exception the source catches. -/
structure DecodePrims where
  b64decode : String → Option (List Nat)
  utf8decode : List Nat → Option String
  jsonLoads : String → Option JVal

/-- Modelled from client._decode_circuit_artifacts_in_place.  Mutating the
artifacts dict in place is modelled by rebuilding the analysis dict with
dset; when the artifacts entry is absent, falsy or not a dict no mutation
can reach the caller (Python operates on a fresh dict or raises
AttributeError into the callers catch-all), so the analysis is returned
unchanged.  A json.JSONDecodeError stores the decoded string itself. -/
def decodeCircuitArtifactsInPlace (prims : DecodePrims) (analysis : JDict) : JDict :=
  match dget analysis "artifacts" with
  | some (.jobj fs) =>
    (match dget fs "circuit_json_b64" with
     | some b64v =>
       if jtruthy b64v then
         match b64v with
         | .jstr b64 =>
           (match prims.b64decode b64 with
            | none => analysis
            | some bytes =>
              match prims.utf8decode bytes with
              | none => analysis
              | some decodedStr =>
                let fs2 :=
                  match prims.jsonLoads decodedStr with
                  | some j => dset fs "circuit_json" j
                  | none => dset fs "circuit_json" (.jstr decodedStr)
                dset analysis "artifacts" (.jobj fs2))
         | _ => analysis
       else analysis
     | none => analysis)
  | _ => analysis

/-- Modelled from client._decode_optional_artifacts: a None analysis is
replaced by a fresh dict whose mutation is lost, so the response is
unchanged in that case. -/
def decodeOptionalArtifacts (prims : DecodePrims) (r : AlgorithmResponse) :
    AlgorithmResponse :=
  match r.analysis with
  | some a => { r with analysis := some (decodeCircuitArtifactsInPlace prims a) }
  | none => r

/-- One item yielded by stream_events: either a raw passthrough string or
a successfully JSON-parsed dict. -/
inductive StreamItem where
  | sstr (s : String)
  | sdict (d : JDict)

/-- A line printed by the builtin print() in
_validate_or_print_passthrough. -/
inductive PassItem where
  | pstr (s : String)
  | pdict (d : JDict)

/-- Modelled from QernelClient._RunContext plus the observable side
effects the claims reference. -/
structure RunContext where
  transcript : AlgorithmTranscript := {}
  pipeline_done_summary : Option JDict := none
  passthroughPrints : List PassItem := []
  renderedTaskSummaries : List (List TaskSummaryEntry) := []

/-- Modelled from QernelClient._status_level_from_stage. -/
def statusLevelFromStage (stage : String) : String :=
  if strEndsWith stage ":ok" then "success"
  else if strEndsWith stage ":err" then "error"
  else "info"

/-- Modelled from QernelClient._update_methods_from_status. -/
def updateMethodsFromStatus (ctx : RunContext) (e : StreamEvent) (stage : String) :
    RunContext :=
  let m := ctx.transcript.methods
  let m :=
    if strStartsWith stage "get_name:ok" && e.result.isSome then
      { m with get_name_result := some (jStr (e.result.getD .jnull)) }
    else if strStartsWith stage "get_type:ok" && e.result.isSome then
      { m with get_type_result := some (jStr (e.result.getD .jnull)) }
    else if strStartsWith stage "build_circuit:ok" then
      let m := match e.summary with
        | some v => { m with build_circuit_summary := some v }
        | none => m
      match e.obj_type with
      | some t => { m with build_circuit_type := some t }
      | none => m
    else m
  { ctx with transcript := { ctx.transcript with methods := m } }

/-- Modelled from QernelClient._handle_status_event (status printing and
visualizer updates elided: they do not touch the transcript). -/
def handleStatusEvent (ctx : RunContext) (e : StreamEvent) : RunContext :=
  let stage := e.stage.getD ""
  let ctx := updateMethodsFromStatus ctx e stage
  if strStartsWith stage "pipeline:done" then
    match e.summary with
    | some (.jobj s) => { ctx with pipeline_done_summary := some s }
    | _ => ctx
  else ctx

/-- Modelled from QernelClient._merge_pipeline_summary_into_analysis.  An
error result models the uncaught ValueError/TypeError Python raises from
dict(summary) when the stored summary value is a truthy non-mapping (the
local except clause catches only AttributeError and RuntimeError). -/
def mergePipelineSummaryIntoAnalysis (response : AlgorithmResponse)
    (pds : Option JDict) : Except String AlgorithmResponse :=
  match pds with
  | none => .ok response
  | some stash =>
    let merged := response.analysis.getD []
    match dget merged "summary" with
    | some v =>
      if jtruthy v then
        match v with
        | .jobj s0 =>
          .ok { response with
                analysis := some (dset merged "summary" (.jobj (dupdate s0 stash))) }
        | _ => .error "dictionary update sequence: summary is not a mapping"
      else
        .ok { response with
              analysis := some (dset merged "summary" (.jobj (dupdate [] stash))) }
    | none =>
      .ok { response with
            analysis := some (dset merged "summary" (.jobj (dupdate [] stash))) }

/-- Modelled from QernelClient._handle_result_event (printing and
visualizer updates elided; the task-summary render is recorded, mirroring
the `if task_summary:` guard of _print_and_visualize_result). -/
def handleResultEvent (prims : DecodePrims) (ctx : RunContext) (e : StreamEvent) :
    Except String RunContext :=
  match e.response with
  | none => .ok ctx
  | some r =>
    match mergePipelineSummaryIntoAnalysis r ctx.pipeline_done_summary with
    | .error msg => .error msg
    | .ok r1 =>
      let r2 := decodeOptionalArtifacts prims r1
      let t := ctx.transcript
      let t := { t with response := some r2, methods := r2.methods,
                        class_name := some r2.class_, class_doc := some r2.class_doc }
      let ts := summarizeTasks (some r2.methods.build_circuit_doc) r2.analysis
      let rendered :=
        if ts.isEmpty then ctx.renderedTaskSummaries
        else ctx.renderedTaskSummaries ++ [ts]
      .ok { ctx with transcript := t, renderedTaskSummaries := rendered }

/-- Modelled from QernelClient._handle_error_event: mark the transcript,
then raise a QernelAPIError carrying the snapshot taken at raise time. -/
def handleErrorEvent (ctx : RunContext) (e : StreamEvent) :
    RunContext × QernelAPIErrorE :=
  let t := { ctx.transcript with ended_reason := some "error" }
  ({ ctx with transcript := t },
   { message := firstTruthyStr [e.message, e.error] "Unknown streaming error",
     transcript := some t })

/-- Modelled from QernelClient._mark_done. -/
def markDone (now : Nat) (ctx : RunContext) : RunContext :=
  { ctx with transcript :=
    { ctx.transcript with ended_reason := some "done", ended_at := some now } }

/-- The message a pydantic ValidationError renders to (abstracted). -/
def validationErrorMsg : String := "1 validation error for StreamEvent"

/-- Modelled from QernelClient._validate_or_print_passthrough.  A non-dict
item is printed and dropped.  A dict that fails validation raises
pydantic.ValidationError, a ValueError subclass: the local
`except (AttributeError, RuntimeError)` does NOT catch it, so the failure
escapes as an exception (the print-and-continue branch is dead code). -/
def validateOrPrintPassthrough (ctx : RunContext) (item : StreamItem) :
    Except String (Option StreamEvent × RunContext) :=
  match item with
  | .sdict d =>
    match streamEventValidate d with
    | some se => .ok (some se, ctx)
    | none => .error validationErrorMsg
  | .sstr s =>
    .ok (none, { ctx with passthroughPrints := ctx.passthroughPrints ++ [.pstr s] })

/-- Result of processing one stream item. -/
inductive StepRes where
  | cont (ctx : RunContext)
  | stop (ctx : RunContext)
  | raisedE (ctx : RunContext) (e : QernelAPIErrorE)
  | raisedPy (ctx : RunContext) (msg : String)

/-- Modelled from QernelClient._process_stream_event together with the
handlers table built in run_stream_with_handler. -/
def processStreamEvent (prims : DecodePrims) (now : Nat) (ctx : RunContext)
    (item : StreamItem) : StepRes :=
  match validateOrPrintPassthrough ctx item with
  | .error msg => .raisedPy ctx msg
  | .ok (none, ctx1) => .cont ctx1
  | .ok (some se, ctx1) =>
    let ctx2 := { ctx1 with transcript := ctx1.transcript.addEvent se }
    if se.type = "start" then .cont ctx2
    else if se.type = "status" then .cont (handleStatusEvent ctx2 se)
    else if se.type = "error" then
      let p := handleErrorEvent ctx2 se
      .raisedE p.1 p.2
    else if se.type = "result" then
      match handleResultEvent prims ctx2 se with
      | .ok c => .cont c
      | .error m => .raisedPy ctx2 m
    else if se.type = "done" then .stop (markDone now ctx2)
    else .cont ctx2

/-- Result of draining the event stream. -/
inductive DrainRes where
  | finished (ctx : RunContext)
  | apiError (ctx : RunContext) (e : QernelAPIErrorE)
  | pyError (ctx : RunContext) (msg : String)

/-- Modelled from QernelClient._drain_stream_events: fold items until a
done event stops consumption or an exception unwinds. -/
def drainStreamEvents (prims : DecodePrims) (now : Nat) (ctx : RunContext) :
    List StreamItem → DrainRes
  | [] => .finished ctx
  | item :: rest =>
    match processStreamEvent prims now ctx item with
    | .cont c => drainStreamEvents prims now c rest
    | .stop c => .finished c
    | .raisedE c e => .apiError c e
    | .raisedPy c m => .pyError c m

/-- Modelled from QernelClient.run_stream_with_handler over an already
decoded item sequence (the SSE transport is external): normal completion
backfills ended_at; a QernelAPIError is re-raised as-is after stamping the
live (discarded) transcript; other exceptions are wrapped with a snapshot
taken after ended_at is stamped. -/
def runStreamWithHandler (prims : DecodePrims) (now : Nat)
    (items : List StreamItem) : Except QernelAPIErrorE AlgorithmTranscript :=
  let ctx : RunContext := {}
  match drainStreamEvents prims now ctx items with
  | .finished c =>
    let t := c.transcript
    .ok (if t.ended_at = none then { t with ended_at := some now } else t)
  | .apiError _ e => .error e
  | .pyError c msg =>
    let t :=
      if c.transcript.ended_at = none then { c.transcript with ended_at := some now }
      else c.transcript
    .error { message := msg, transcript := some t }

/-! ## Warm-up indicator (src/qernel/vis/terminal.py and the _Warmup
helper in QernelClient.__init__)

Rich console styling is reproduced only as the literal line strings the
source composes; the ephemeral spinner is a flag plus its label.  Writes
to stderr/console are recorded in an ordered output list. -/

/-- The ansi helper of terminal.py. -/
def ansi (code text : String) (enable : Bool) : String :=
  if enable then "\x1b[" ++ code ++ "m" ++ text ++ "\x1b[0m" else text

/-- An active ephemeral spinner (thread and frames abstracted away; only
its presence and label are observable). -/
structure SpinnerM where
  label : String
deriving DecidableEq

/-- One observable output of the printer: a console print, a spinner
replacement line, or a spinner clear. -/
inductive TermLine where
  | consoleLine (s : String)
  | spinnerReplaced (s : String)
  | spinnerCleared
deriving DecidableEq

/-- Modelled from terminal.TerminalPrinter (only the warm-up relevant
state: colors, TTY-dependent spinner permission, active step, spinner,
and the ordered output log). -/
structure TerminalPrinter where
  enable_color : Bool := false
  ephemeral_ok : Bool := false
  active_name : Option String := none
  active_label : Option String := none
  spinner : Option SpinnerM := none
  out : List TermLine := []
deriving DecidableEq

/-- Modelled from TerminalPrinter._mark_ansi. -/
def markAnsi (p : TerminalPrinter) (kind : String) : String :=
  if kind = "success" then ansi "32" "✓" p.enable_color
  else if kind = "error" then ansi "31" "✗" p.enable_color
  else if kind = "warning" then ansi "33" "!" p.enable_color
  else ansi "36" "•" p.enable_color

/-- Modelled from TerminalPrinter.start_warmup with the default label. -/
def startWarmup (p : TerminalPrinter) : TerminalPrinter :=
  let p :=
    match p.spinner with
    | some _ => { p with out := p.out ++ [TermLine.spinnerCleared], spinner := none }
    | none => p
  let grayHint := ansi "90" "(slower after periods of inactivity)" p.enable_color
  let label := "server warm up: " ++ grayHint
  let p := { p with active_name := some "warmup", active_label := some label }
  if p.ephemeral_ok then { p with spinner := some ⟨label⟩ }
  else { p with out := p.out ++ [TermLine.consoleLine label] }

/-- Modelled from TerminalPrinter.finish_warmup: a no-op unless the
warm-up step is still active, otherwise compose and emit the final line
and clear the active step. -/
def finishWarmup (p : TerminalPrinter) (success : Bool) : TerminalPrinter :=
  if p.active_name ≠ some "warmup" then p
  else
    let symbol := markAnsi p (if success then "success" else "error")
    let note := if success then "connected" else "failed"
    let labelText := p.active_label.getD "warmup"
    let sep := if strContains labelText ":" then " " else ": "
    let line := symbol ++ " " ++ labelText ++ sep ++ note
    let p :=
      match p.spinner with
      | some _ => { p with out := p.out ++ [TermLine.spinnerReplaced line], spinner := none }
      | none => { p with out := p.out ++ [TermLine.consoleLine line] }
    { p with active_name := none, active_label := none }

/-- Modelled from the _Warmup helper class in QernelClient.__init__. -/
structure Warmup where
  finish_on_exit : Bool := true
  connected : Bool := false
deriving DecidableEq

/-- Modelled from _Warmup.start. -/
def warmStart (w : Warmup) (p : TerminalPrinter) : Warmup × TerminalPrinter :=
  (w, startWarmup p)

/-- Modelled from _Warmup.mark_connected. -/
def warmMarkConnected (w : Warmup) (p : TerminalPrinter) : Warmup × TerminalPrinter :=
  if w.connected then (w, p)
  else ({ w with connected := true }, finishWarmup p true)

/-- Modelled from _Warmup.finish. -/
def warmFinish (w : Warmup) (p : TerminalPrinter) : Warmup × TerminalPrinter :=
  if !w.connected then (w, finishWarmup p false)
  else if w.finish_on_exit then (w, finishWarmup p true)
  else (w, p)

/-- Exit classes of the guarded connection phase: HTTP 200, a
non-retryable HTTP status raised as QernelAPIError, the warm-up deadline
timeout, or any other exception unwinding the call. -/
inductive ConnectOutcome where
  | ok
  | fatalHTTP
  | timedOut
  | exc
deriving DecidableEq

/-- Modelled from the warm-up choreography of _post_sse_with_retry and
load_artifact: start the spinner, mark connected on success, and finalize
in the `finally` block on every exit path. -/
def warmupExitRun (ec eph : Bool) (oc : ConnectOutcome) : Warmup × TerminalPrinter :=
  let p : TerminalPrinter := { enable_color := ec, ephemeral_ok := eph }
  let w : Warmup := {}
  let s := warmStart w p
  match oc with
  | .ok =>
    let s1 := warmMarkConnected s.1 s.2
    warmFinish s1.1 s1.2
  | _ => warmFinish s.1 s.2

/-- A warm-up finalization line: the only lines the modelled flow emits
ending in the "connected"/"failed" note composed by finish_warmup. -/
def isWarmupFinalLine : TermLine → Bool
  | .consoleLine s => strEndsWith s "connected" || strEndsWith s "failed"
  | .spinnerReplaced s => strEndsWith s "connected" || strEndsWith s "failed"
  | .spinnerCleared => false

/-- A finalization line reporting success. -/
def isConnectedFinalLine : TermLine → Bool
  | .consoleLine s => strEndsWith s "connected"
  | .spinnerReplaced s => strEndsWith s "connected"
  | .spinnerCleared => false

/-! ## Retry loops (client._connect_sse_with_retry and
client._get_with_retry_until_deadline)

Time is an exact rational clock: an attempt consumes its network duration
and a sleep advances the clock by exactly the slept amount.  The HTTP
calls _sse_post_once/_http_get_once are an oracle from the attempt index
and the per-attempt timeout to an outcome.  The unbounded Python `while
True` is modelled with explicit fuel; the termination theorem exhibits
sufficient fuel and shows the result is fuel-independent beyond it. -/

/-- Outcome of one connection attempt: HTTP 200, a retryable failure
(502/503/504 or a transport exception), or a non-retryable HTTP status
raised as QernelAPIError.  Each carries the wall-clock duration the
attempt consumed. -/
inductive AttemptOutcome where
  | ok (dur : ℚ)
  | retryable (dur : ℚ)
  | fatal (dur : ℚ) (status : Nat) (body : String)

/-- Trace of a finished retry loop: total attempts issued and the
(backoff, sleep) pair of every retry sleep, in order. -/
structure RetryTrace where
  attempts : Nat
  sleeps : List (ℚ × ℚ)

/-- Result of a retry loop. -/
inductive RetryResult where
  | connected (trace : RetryTrace)
  | timedOut (msg : String) (trace : RetryTrace)
  | fatalError (status : Nat) (trace : RetryTrace)

/-- Modelled from QernelClient._connect_sse_with_retry (start_time = 0,
clock = elapsed): fail with the timeout error when remaining ≤ 0 at the
top of an iteration, otherwise attempt with timeout = remaining, sleep
min(backoff, max(0.5, remaining)) on a retryable outcome and double the
backoff capped at 10. -/
def connectSSEWithRetry (streamTimeout : ℚ) (att : Nat → ℚ → AttemptOutcome) :
    Nat → ℚ → ℚ → Nat → List (ℚ × ℚ) → Option RetryResult
  | 0, _, _, _, _ => none
  | fuel + 1, clock, backoff, n, sleeps =>
    let remaining := streamTimeout - clock
    if remaining ≤ 0 then
      some (.timedOut "Streaming request timed out while warming up origin"
        ⟨n, sleeps.reverse⟩)
    else
      match att n remaining with
      | .ok _ => some (.connected ⟨n + 1, sleeps.reverse⟩)
      | .fatal _ status _ => some (.fatalError status ⟨n + 1, sleeps.reverse⟩)
      | .retryable dur =>
        let sleepS := min backoff (max (1/2 : ℚ) remaining)
        connectSSEWithRetry streamTimeout att fuel (clock + dur + sleepS)
          (min (backoff * 2) 10) (n + 1) ((backoff, sleepS) :: sleeps)

/-- Modelled from QernelClient._get_with_retry_until_deadline: same loop
with a deadline, a per-attempt timeout max(min(remaining, max(cfgTimeout,
60)), 1), and a caller-supplied backoff cap; the caller seeds the backoff
with max(0.5, initial_backoff). -/
def getWithRetryUntilDeadline (deadline cfgTimeout maxBackoff : ℚ)
    (att : Nat → ℚ → AttemptOutcome) :
    Nat → ℚ → ℚ → Nat → List (ℚ × ℚ) → Option RetryResult
  | 0, _, _, _, _ => none
  | fuel + 1, clock, backoff, n, sleeps =>
    let remaining := deadline - clock
    if remaining ≤ 0 then
      some (.timedOut "Artifact download timed out while warming up origin"
        ⟨n, sleeps.reverse⟩)
    else
      let perAttemptTimeout := max (min remaining (max cfgTimeout 60)) 1
      match att n perAttemptTimeout with
      | .ok _ => some (.connected ⟨n + 1, sleeps.reverse⟩)
      | .fatal _ status _ => some (.fatalError status ⟨n + 1, sleeps.reverse⟩)
      | .retryable dur =>
        let sleepS := min backoff (max (1/2 : ℚ) remaining)
        getWithRetryUntilDeadline deadline cfgTimeout maxBackoff att fuel
          (clock + dur + sleepS) (min (backoff * 2) maxBackoff) (n + 1)
          ((backoff, sleepS) :: sleeps)

/-- The sleeps of a retry trace follow the backoff discipline: starting
from b, each sleep is bounded by the current backoff, which then doubles
capped at cap. -/
def backoffChain (cap : ℚ) : ℚ → List (ℚ × ℚ) → Prop
  | _, [] => True
  | b, p :: rest => p.1 = b ∧ p.2 ≤ b ∧ backoffChain cap (min (b * 2) cap) rest

/-- Every attempt of this oracle is retryable with a nonnegative
duration (a permanently cold origin answering 503). -/
def AllRetryable (att : Nat → ℚ → AttemptOutcome) : Prop :=
  ∀ n t, ∃ d, att n t = .retryable d ∧ 0 ≤ d

/-! ## Concrete fixtures and observation helpers -/

/-- Decoding oracle for runs that never touch artifacts. -/
def trivialPrims : DecodePrims :=
  ⟨fun _ => none, fun _ => none, fun _ => none⟩

/-- The UTF-8 bytes of "not json". -/
def notJsonBytes : List Nat := [110, 111, 116, 32, 106, 115, 111, 110]

/-- Decoding oracle agreeing with the real libraries on the fixture
input: base64 "bm90IGpzb24=" decodes to the bytes of "not json", which
decode to the string "not json", which json.loads rejects. -/
def demoPrims : DecodePrims :=
  ⟨fun b64 => if b64 = "bm90IGpzb24=" then some notJsonBytes else none,
   fun bs => if bs = notJsonBytes then some "not json" else none,
   fun _ => none⟩

/-- Analysis payload whose artifacts carry a base64 blob that is valid
base64 and valid UTF-8 but not valid JSON. -/
def cexAnalysis : JDict :=
  [("artifacts", .jobj [("circuit_json_b64", .jstr "bm90IGpzb24=")])]

/-- The circuit_json entry of the artifacts dict of an analysis. -/
def artifactsCircuitJson (a : JDict) : Option JVal :=
  match dget a "artifacts" with
  | some (.jobj fs) => dget fs "circuit_json"
  | _ => none

/-- Wire dict of a bare start event. -/
def startD : JDict := [("type", .jstr "start")]

/-- Wire dict of a done event. -/
def doneD : JDict := [("type", .jstr "done")]

/-- Wire dict with an unknown type tag: fails StreamEvent validation. -/
def bogusD : JDict := [("type", .jstr "bogus")]

/-- Wire dict of an error event. -/
def errD : JDict := [("type", .jstr "error"), ("message", .jstr "boom")]

/-- The validated form of startD. -/
def startEv : StreamEvent := { type := "start" }

/-- The validated form of errD. -/
def errEv : StreamEvent := { type := "error", message := some "boom" }

/-- Wire dict of a pipeline:done status event carrying summary a=1. -/
def pdStatusA1 : JDict :=
  [("type", .jstr "status"), ("stage", .jstr "pipeline:done"),
   ("summary", .jobj [("a", .jnum 1)])]

/-- Wire dict of a pipeline:done status event carrying summary a=5. -/
def pdStatusA5 : JDict :=
  [("type", .jstr "status"), ("stage", .jstr "pipeline:done"),
   ("summary", .jobj [("a", .jnum 5)])]

/-- Wire dict of a result event whose analysis.summary is b=2. -/
def resultB2 : JDict :=
  [("type", .jstr "result"),
   ("response", .jobj
     [("class", .jstr "Algo"), ("class_doc", .jstr "doc"),
      ("methods", .jobj []),
      ("analysis", .jobj [("summary", .jobj [("b", .jnum 2)])])])]

/-- Wire dict of a result event whose analysis.summary is a=9, b=2. -/
def resultA9B2 : JDict :=
  [("type", .jstr "result"),
   ("response", .jobj
     [("class", .jstr "Algo"), ("class_doc", .jstr "doc"),
      ("methods", .jobj []),
      ("analysis", .jobj [("summary", .jobj [("a", .jnum 9), ("b", .jnum 2)])])])]

/-- A rich analysis payload with a non-empty pipeline (for the empty-doc
summarizer claim). -/
def richAnalysis : JDict :=
  [("pipeline", .jarr
     [.jobj [("name", .jstr "resource.qualtran"),
             ("output", .jobj [("summary", .jobj [("t_count", .jnum 10)])])],
      .jobj [("name", .jstr "mitigation.mitiq.zne"),
             ("output", .jobj [("mitigated_value", .jnum 1)])]])]

/-- True when the run returned a transcript (no exception). -/
def runIsOk : Except QernelAPIErrorE AlgorithmTranscript → Bool
  | .ok _ => true
  | .error _ => false

/-- ended_reason of a successfully returned transcript. -/
def runOkEndedReason : Except QernelAPIErrorE AlgorithmTranscript → Option (Option String)
  | .ok t => some t.ended_reason
  | .error _ => none

/-- Number of folded events of a successfully returned transcript. -/
def runOkEventsLen : Except QernelAPIErrorE AlgorithmTranscript → Option Nat
  | .ok t => some t.events.length
  | .error _ => none

/-- Transcript snapshot attached to a raised error, if any. -/
def runErrTranscript : Except QernelAPIErrorE AlgorithmTranscript → Option AlgorithmTranscript
  | .ok _ => none
  | .error e => e.transcript

/-- analysis.summary of the returned transcript's response. -/
def runResponseSummary : Except QernelAPIErrorE AlgorithmTranscript → Option JVal
  | .ok t =>
    (match t.response with
     | some r => dget (r.analysis.getD []) "summary"
     | none => none)
  | .error _ => none

/-- Attempt oracle that always reports a retryable 503 taking no time. -/
def constRetryAtt : Nat → ℚ → AttemptOutcome := fun _ _ => .retryable 0

/-- True when a fuelled retry loop finished with the timeout error. -/
def retryIsTimeout : Option RetryResult → Bool
  | some (.timedOut _ _) => true
  | _ => false

/-- An event whose eventual result-merge cannot hit the uncaught
dict(summary) ValueError: whenever it carries a response whose stored
analysis.summary is truthy, that summary is a mapping.  This is the
well-formedness region in which Python's _handle_result_event returns
normally (see mergePipelineSummaryIntoAnalysis). -/
def MergeSafe (e : StreamEvent) : Prop :=
  ∀ r, e.response = some r →
    ∀ v, dget (r.analysis.getD []) "summary" = some v → jtruthy v = true →
      ∃ s, v = JVal.jobj s

/-- The error raised by the fixture run that ends in an error event. -/
def c10Err : QernelAPIErrorE :=
  match runStreamWithHandler trivialPrims 7 [StreamItem.sdict errD] with
  | .error e => e
  | .ok _ => { message := "" }

/-- The transcript snapshot carried by c10Err. -/
def c10Snap : AlgorithmTranscript := c10Err.transcript.getD {}

/-- Docstring fixture hitting all three task keyword groups. -/
def c8Doc : String :=
  "Performs resource estimation, applies Mitiq ZNE error mitigation, then simulate with shots=200."

/-- Response fixture with an empty build_circuit docstring and a rich
pipeline analysis. -/
def demoC9Resp : AlgorithmResponse :=
  { class_ := "Algo", class_doc := "doc", methods := {}, analysis := some richAnalysis }

/-- Result event fixture carrying demoC9Resp. -/
def demoC9Ev : StreamEvent := { type := "result", response := some demoC9Resp }

/-- The run context produced by handling demoC9Ev from a fresh context. -/
def demoC9Ctx : RunContext :=
  match handleResultEvent trivialPrims {} demoC9Ev with
  | .ok c => c
  | .error _ => {}

/-! ## Theorems -/

/-- Helper: the merged summary dict b=2, a=1 is extensionally the dict
a=1, b=2 (Python dict equality ignores insertion order). -/
theorem dict_ba_equiv_ab :
    dictEquiv [("b", JVal.jnum 2), ("a", JVal.jnum 1)]
      [("a", JVal.jnum 1), ("b", JVal.jnum 2)] := by
  intro k
  by_cases h1 : "b" = k
  · subst h1; rfl
  · by_cases h2 : "a" = k
    · subst h2; rfl
    · simp [dget, h1, h2]

/-- C1: the claim says a caller either gets a transcript with
ended_reason "done" or an exception carrying the partial transcript, in
particular that EOF without a terminal event cannot yield a non-"done"
transcript without raising.  The code violates this: draining a stream
that ends after a single valid start event returns normally with
ended_reason = None, contradicting run_stream_with_handler's own
documented all-or-nothing policy. -/
theorem C1_eof_returns_incomplete_transcript :
    runIsOk (runStreamWithHandler trivialPrims 7 [.sdict startD]) = true ∧
    runOkEndedReason (runStreamWithHandler trivialPrims 7 [.sdict startD]) = some none ∧
    runOkEndedReason (runStreamWithHandler trivialPrims 7 [.sdict startD]) ≠
      some (some "done") ∧
    runOkEventsLen (runStreamWithHandler trivialPrims 7 [.sdict startD]) = some 1 :=
  ⟨rfl, rfl, by decide, rfl⟩

/-- C2: the claim says a schema-invalid event dict degrades to a raw
print and folding continues.  The code violates this:
pydantic.ValidationError subclasses ValueError, so the
`except (AttributeError, RuntimeError)` in _validate_or_print_passthrough
never catches it; feeding a valid start event, a dict with unknown type,
then a valid done event aborts the stream with a wrapped QernelAPIError
after folding only the first event. -/
theorem C2_schema_invalid_event_aborts_stream :
    streamEventValidate bogusD = none ∧
    streamEventValidate doneD = some { type := "done" } ∧
    runIsOk (runStreamWithHandler trivialPrims 7
      [.sdict startD, .sdict bogusD, .sdict doneD]) = false ∧
    (runErrTranscript (runStreamWithHandler trivialPrims 7
      [.sdict startD, .sdict bogusD, .sdict doneD])).map (fun t => t.events.length) =
      some 1 ∧
    (runErrTranscript (runStreamWithHandler trivialPrims 7
      [.sdict startD, .sdict bogusD, .sdict doneD])).map (fun t => t.ended_reason) =
      some none :=
  ⟨rfl, rfl, rfl, rfl, rfl⟩

/-- C4: a pipeline:done status event with summary a=1 followed by a
result event with analysis.summary b=2 merges to the dict a=1, b=2 (the
stashed keys winning on collision, witnessed by the a=9 scenario), and
with two pipeline:done events the last stashed summary wins. -/
theorem C4_pipeline_done_stash_merge :
    (runResponseSummary (runStreamWithHandler trivialPrims 7
        [.sdict pdStatusA1, .sdict resultB2, .sdict doneD]) =
      some (.jobj [("b", JVal.jnum 2), ("a", JVal.jnum 1)]) ∧
     dictEquiv [("b", JVal.jnum 2), ("a", JVal.jnum 1)]
       [("a", JVal.jnum 1), ("b", JVal.jnum 2)]) ∧
    runResponseSummary (runStreamWithHandler trivialPrims 7
        [.sdict pdStatusA1, .sdict pdStatusA5, .sdict resultB2, .sdict doneD]) =
      some (.jobj [("b", JVal.jnum 2), ("a", JVal.jnum 5)]) ∧
    runResponseSummary (runStreamWithHandler trivialPrims 7
        [.sdict pdStatusA1, .sdict resultA9B2, .sdict doneD]) =
      some (.jobj [("a", JVal.jnum 1), ("b", JVal.jnum 2)]) :=
  ⟨⟨rfl, dict_ba_equiv_ab⟩, rfl, rfl⟩

/-- C7 counterexample: the claim says any decode failure, including
invalid JSON, leaves circuit_json absent.  On the concrete artifact
"bm90IGpzb24=" (base64 of "not json"), json.loads fails, yet the code
stores the decoded string under circuit_json: the field is present. -/
theorem C7_counterexample_json_failure_sets_field :
    demoPrims.jsonLoads "not json" = none ∧
    artifactsCircuitJson (decodeCircuitArtifactsInPlace demoPrims cexAnalysis) =
      some (.jstr "not json") :=
  ⟨rfl, rfl⟩

/-- C7 amended: decoding never raises (the embedding is total); a base64
or UTF-8 decode failure leaves the analysis unchanged (circuit_json
absent); a JSON parse failure stores the decoded UTF-8 string itself
under circuit_json; a JSON parse success stores the parsed value. -/
theorem C7_decode_tolerance (prims : DecodePrims) (analysis fs : JDict)
    (b64s : String)
    (hart : dget analysis "artifacts" = some (.jobj fs))
    (hb : dget fs "circuit_json_b64" = some (.jstr b64s))
    (hne : b64s ≠ "") :
    (prims.b64decode b64s = none →
      decodeCircuitArtifactsInPlace prims analysis = analysis) ∧
    (∀ bs, prims.b64decode b64s = some bs → prims.utf8decode bs = none →
      decodeCircuitArtifactsInPlace prims analysis = analysis) ∧
    (∀ bs s, prims.b64decode b64s = some bs → prims.utf8decode bs = some s →
      prims.jsonLoads s = none →
      decodeCircuitArtifactsInPlace prims analysis =
        dset analysis "artifacts" (.jobj (dset fs "circuit_json" (.jstr s)))) ∧
    (∀ bs s j, prims.b64decode b64s = some bs → prims.utf8decode bs = some s →
      prims.jsonLoads s = some j →
      decodeCircuitArtifactsInPlace prims analysis =
        dset analysis "artifacts" (.jobj (dset fs "circuit_json" j))) := by
  refine ⟨?_, ?_, ?_, ?_⟩
  · intro h
    simp [decodeCircuitArtifactsInPlace, hart, hb, jtruthy, hne, h]
  · intro bs h1 h2
    simp [decodeCircuitArtifactsInPlace, hart, hb, jtruthy, hne, h1, h2]
  · intro bs s h1 h2 h3
    simp [decodeCircuitArtifactsInPlace, hart, hb, jtruthy, hne, h1, h2, h3]
  · intro bs s j h1 h2 h3
    simp [decodeCircuitArtifactsInPlace, hart, hb, jtruthy, hne, h1, h2, h3]

/-- C7 witness: the amended theorem applied at the concrete fixture. -/
theorem C7_decode_tolerance_witness :
    ("bm90IGpzb24=" : String) ≠ "" ∧
    artifactsCircuitJson (decodeCircuitArtifactsInPlace demoPrims cexAnalysis) =
      some (.jstr "not json") := by
  have h := C7_decode_tolerance demoPrims cexAnalysis
    [("circuit_json_b64", .jstr "bm90IGpzb24=")] "bm90IGpzb24=" rfl rfl (by decide)
  refine ⟨by decide, ?_⟩
  rw [h.2.2.1 notJsonBytes "not json" rfl rfl rfl]
  rfl

/-- Helper: merging the stashed pipeline summary only rewrites the
analysis, never the methods payload. -/
theorem merge_preserves_methods (r : AlgorithmResponse) (pds : Option JDict)
    (r1 : AlgorithmResponse) (h : mergePipelineSummaryIntoAnalysis r pds = .ok r1) :
    r1.methods = r.methods := by
  unfold mergePipelineSummaryIntoAnalysis at h
  split at h
  · cases h; rfl
  · dsimp only at h
    split at h
    · split at h
      · split at h
        · cases h; rfl
        · cases h
      · cases h; rfl
    · cases h; rfl

/-- Helper: artifact decoding only rewrites the analysis, never the
methods payload. -/
theorem decode_preserves_methods (prims : DecodePrims) (r : AlgorithmResponse) :
    (decodeOptionalArtifacts prims r).methods = r.methods := by
  unfold decodeOptionalArtifacts
  split <;> rfl

/-- C9: with a None or empty build_circuit docstring the summarizer
returns no entries at all, whatever the analysis payload; consequently
the result handler renders no task summary when the response's
build_circuit docstring is empty. -/
theorem C9_empty_doc_yields_no_tasks :
    (∀ analysis : Option JDict,
      summarizeTasks none analysis = [] ∧ summarizeTasks (some "") analysis = []) ∧
    (∀ (prims : DecodePrims) (ctx : RunContext) (e : StreamEvent)
        (r : AlgorithmResponse) (c : RunContext),
      e.response = some r → r.methods.build_circuit_doc = "" →
      handleResultEvent prims ctx e = .ok c →
      c.renderedTaskSummaries = ctx.renderedTaskSummaries) := by
  constructor
  · intro analysis; exact ⟨rfl, rfl⟩
  · intro prims ctx e r c hresp hdoc h
    unfold handleResultEvent at h
    cases hm : mergePipelineSummaryIntoAnalysis r ctx.pipeline_done_summary with
    | error m => simp only [hresp, hm] at h; exact Except.noConfusion h
    | ok r1 =>
      simp only [hresp, hm] at h
      have hm1 : r1.methods = r.methods := merge_preserves_methods r _ r1 hm
      have hm2 : (decodeOptionalArtifacts prims r1).methods = r1.methods :=
        decode_preserves_methods prims r1
      have hdoc2 : (decodeOptionalArtifacts prims r1).methods.build_circuit_doc = "" := by
        rw [hm2, hm1, hdoc]
      simp only [hdoc2] at h
      have hts : summarizeTasks (some "") (decodeOptionalArtifacts prims r1).analysis = [] := rfl
      rw [hts] at h
      simp only [List.isEmpty_nil, if_true] at h
      cases h
      rfl

/-- C9 witness: the theorem applied to the rich-pipeline fixture with a
None and an empty docstring, and to a concrete result-handler run. -/
theorem C9_empty_doc_yields_no_tasks_witness :
    summarizeTasks none (some richAnalysis) = [] ∧
    summarizeTasks (some "") (some richAnalysis) = [] ∧
    demoC9Ctx.renderedTaskSummaries = [] := by
  have h1 := C9_empty_doc_yields_no_tasks.1 (some richAnalysis)
  have h2 := C9_empty_doc_yields_no_tasks.2 trivialPrims {} demoC9Ev demoC9Resp
    demoC9Ctx rfl rfl rfl
  exact ⟨h1.1, h1.2, by rw [h2]⟩

/-- C8: a build_circuit docstring whose lower-cased text hits a keyword
of each of the three groups produces exactly three task summary entries
with ids resource_estimation, error_mitigation_zne, simulation_histogram,
in that order, for any analysis payload. -/
theorem C8_three_tasks_in_order (doc : String) (analysis : Option JDict)
    (h1 : strContains (pyLower doc) "resource" = true ∨
          strContains (pyLower doc) "estimate" = true)
    (h2 : strContains (pyLower doc) "mitiq" = true ∨
          strContains (pyLower doc) "zne" = true ∨
          strContains (pyLower doc) "error mitigation" = true)
    (h3 : strContains (pyLower doc) "simulate" = true ∨
          strContains (pyLower doc) "simulation" = true ∨
          strContains (pyLower doc) "histogram" = true ∨
          strContains (pyLower doc) "shots" = true) :
    (summarizeTasks (some doc) analysis).map TaskSummaryEntry.id =
      ["resource_estimation", "error_mitigation_zne", "simulation_histogram"] ∧
    (summarizeTasks (some doc) analysis).length = 3 := by
  have hne : ¬(doc = "") := by
    intro he; subst he
    rcases h1 with h | h <;> exact absurd h (by decide)
  have e1 : (strContains (pyLower doc) "resource" ||
      strContains (pyLower doc) "estimate") = true := by
    rcases h1 with h | h <;> simp [h]
  have e2 : (strContains (pyLower doc) "mitiq" || strContains (pyLower doc) "zne" ||
      strContains (pyLower doc) "error mitigation") = true := by
    rcases h2 with h | h | h <;> simp [h]
  have e3 : (strContains (pyLower doc) "simulate" ||
      strContains (pyLower doc) "simulation" ||
      strContains (pyLower doc) "histogram" ||
      strContains (pyLower doc) "shots") = true := by
    rcases h3 with h | h | h | h <;> simp [h]
  constructor
  · simp [summarizeTasks, extractTaskSpecsFromDoc, hne, e1, e2, e3]
  · simp [summarizeTasks, extractTaskSpecsFromDoc, hne, e1, e2, e3]

/-- C8 witness: the theorem applied to the fixture docstring mentioning
resource estimation, Mitiq ZNE and simulate with shots. -/
theorem C8_three_tasks_in_order_witness :
    strContains (pyLower c8Doc) "resource" = true ∧
    strContains (pyLower c8Doc) "mitiq" = true ∧
    strContains (pyLower c8Doc) "shots" = true ∧
    (summarizeTasks (some c8Doc) none).map TaskSummaryEntry.id =
      ["resource_estimation", "error_mitigation_zne", "simulation_histogram"] :=
  ⟨by decide, by decide, by decide,
   (C8_three_tasks_in_order c8Doc none (Or.inl (by decide))
     (Or.inl (by decide)) (Or.inr (Or.inr (Or.inr (by decide))))).1⟩

/-- C6: on every exit path of the guarded connection phase (success,
non-retryable HTTP failure, deadline timeout, or any other exception) the
warm-up indicator is finalized exactly once, as "connected" exactly when
the connection succeeded and "failed" otherwise, for any color/TTY
configuration; and a further finalization attempt on the same indicator
is a no-op. -/
theorem C6_warmup_finalized_exactly_once (ec eph : Bool) (oc : ConnectOutcome) :
    ((warmupExitRun ec eph oc).2.out.countP isWarmupFinalLine) = 1 ∧
    ((warmupExitRun ec eph oc).2.out.countP isConnectedFinalLine) =
      (if oc = .ok then 1 else 0) ∧
    warmFinish (warmupExitRun ec eph oc).1 (warmupExitRun ec eph oc).2 =
      warmupExitRun ec eph oc := by
  cases ec <;> cases eph <;> cases oc <;> exact ⟨by decide, by decide, by decide⟩

/-- Helper: add_event appends exactly one event. -/
theorem addEvent_events (t : AlgorithmTranscript) (e : StreamEvent) :
    (t.addEvent e).events = t.events ++ [e] := by
  unfold AlgorithmTranscript.addEvent
  split
  · split <;> rfl
  · rfl

/-- Helper: add_event never touches ended_at. -/
theorem addEvent_ended_at (t : AlgorithmTranscript) (e : StreamEvent) :
    (t.addEvent e).ended_at = t.ended_at := by
  unfold AlgorithmTranscript.addEvent
  split
  · split <;> rfl
  · rfl

/-- Helper: add_event never touches ended_reason. -/
theorem addEvent_ended_reason (t : AlgorithmTranscript) (e : StreamEvent) :
    (t.addEvent e).ended_reason = t.ended_reason := by
  unfold AlgorithmTranscript.addEvent
  split
  · split <;> rfl
  · rfl

/-- Helper: the status handler rewrites only the methods payload and the
pipeline stash; the event log and the termination fields are untouched. -/
theorem handleStatus_core (ctx : RunContext) (e : StreamEvent) :
    (handleStatusEvent ctx e).transcript.events = ctx.transcript.events ∧
    (handleStatusEvent ctx e).transcript.ended_at = ctx.transcript.ended_at ∧
    (handleStatusEvent ctx e).transcript.ended_reason = ctx.transcript.ended_reason := by
  unfold handleStatusEvent
  dsimp only
  split
  · split <;> exact ⟨rfl, rfl, rfl⟩
  · exact ⟨rfl, rfl, rfl⟩

/-- Helper: a result-merge that stays in the safe region returns
normally. -/
theorem mergeSafe_ok (r : AlgorithmResponse) (pds : Option JDict)
    (hs : ∀ v, dget (r.analysis.getD []) "summary" = some v → jtruthy v = true →
      ∃ s, v = JVal.jobj s) :
    ∃ r1, mergePipelineSummaryIntoAnalysis r pds = .ok r1 := by
  unfold mergePipelineSummaryIntoAnalysis
  cases pds with
  | none => exact ⟨r, rfl⟩
  | some stash =>
    dsimp only
    cases hv : dget (r.analysis.getD []) "summary" with
    | none => exact ⟨_, rfl⟩
    | some v =>
      by_cases ht : jtruthy v = true
      · obtain ⟨s, rfl⟩ := hs v hv ht
        simp [ht]
      · simp [ht]

/-- Helper: a merge-safe result event is handled without raising. -/
theorem handleResult_ok_of_safe (prims : DecodePrims) (ctx : RunContext)
    (e : StreamEvent) (hms : MergeSafe e) :
    ∃ c, handleResultEvent prims ctx e = .ok c := by
  unfold handleResultEvent
  cases hr : e.response with
  | none => exact ⟨ctx, rfl⟩
  | some r =>
    obtain ⟨r1, hm⟩ := mergeSafe_ok r ctx.pipeline_done_summary
      (fun v hv ht => hms r hr v hv ht)
    dsimp only
    rw [hm]
    exact ⟨_, rfl⟩

/-- Helper: when the result handler returns normally it rewrites only the
response-derived fields; the event log and termination fields are
untouched. -/
theorem handleResult_ok_core (prims : DecodePrims) (ctx : RunContext)
    (e : StreamEvent) (c : RunContext) (h : handleResultEvent prims ctx e = .ok c) :
    c.transcript.events = ctx.transcript.events ∧
    c.transcript.ended_at = ctx.transcript.ended_at ∧
    c.transcript.ended_reason = ctx.transcript.ended_reason := by
  unfold handleResultEvent at h
  split at h
  · cases h; exact ⟨rfl, rfl, rfl⟩
  · split at h
    · exact Except.noConfusion h
    · cases h; exact ⟨rfl, rfl, rfl⟩



/-- Helper: a validated event's type tag is one of the five literals. -/
theorem validate_type_mem (d : JDict) (e : StreamEvent)
    (h : streamEventValidate d = some e) :
    e.type = "start" ∨ e.type = "status" ∨ e.type = "error" ∨ e.type = "result" ∨
      e.type = "done" := by
  simp only [streamEventValidate, bind, Option.bind_eq_some, Option.some.injEq] at h
  obtain ⟨tp, htp, h⟩ := h
  obtain ⟨msg, hmsg, h⟩ := h
  obtain ⟨stage, hstage, h⟩ := h
  obtain ⟨err, herr, h⟩ := h
  obtain ⟨ot, hot, h⟩ := h
  obtain ⟨resp, hresp, h⟩ := h
  obtain ⟨cf, hcf, h⟩ := h
  obtain ⟨ts, hts, h⟩ := h
  have he : e.type = tp := by rw [← h]
  rw [he]
  split at htp
  · split at htp
    · rename_i hcond
      cases htp
      exact hcond
    · exact Option.noConfusion htp
  · exact Option.noConfusion htp

/-- Helper: a validated non-terminal, merge-safe event is folded by
appending exactly itself to the event log, leaving the termination fields
alone, and processing continues. -/
theorem process_quiet_step (prims : DecodePrims) (now : Nat) (ctx : RunContext)
    (d : JDict) (e : StreamEvent) (hv : streamEventValidate d = some e)
    (hnd : e.type ≠ "done") (hne : e.type ≠ "error") (hms : MergeSafe e) :
    ∃ c, processStreamEvent prims now ctx (.sdict d) = .cont c ∧
      c.transcript.events = ctx.transcript.events ++ [e] ∧
      c.transcript.ended_at = ctx.transcript.ended_at ∧
      c.transcript.ended_reason = ctx.transcript.ended_reason := by
  have hval : validateOrPrintPassthrough ctx (.sdict d) = .ok (some e, ctx) := by
    simp [validateOrPrintPassthrough, hv]
  have htypes := validate_type_mem d e hv
  rcases htypes with h | h | h | h | h
  · refine ⟨{ ctx with transcript := ctx.transcript.addEvent e }, ?_, ?_, ?_, ?_⟩
    · simp [processStreamEvent, hval, h]
    · exact addEvent_events ctx.transcript e
    · exact addEvent_ended_at ctx.transcript e
    · exact addEvent_ended_reason ctx.transcript e
  · refine ⟨handleStatusEvent { ctx with transcript := ctx.transcript.addEvent e } e,
      ?_, ?_, ?_, ?_⟩
    · simp [processStreamEvent, hval, h]
    · rw [(handleStatus_core _ e).1]; exact addEvent_events ctx.transcript e
    · rw [(handleStatus_core _ e).2.1]; exact addEvent_ended_at ctx.transcript e
    · rw [(handleStatus_core _ e).2.2]; exact addEvent_ended_reason ctx.transcript e
  · exact absurd h hne
  · obtain ⟨c3, h3⟩ := handleResult_ok_of_safe prims
      { ctx with transcript := ctx.transcript.addEvent e } e hms
    have core := handleResult_ok_core prims _ e c3 h3
    refine ⟨c3, ?_, ?_, ?_, ?_⟩
    · simp [processStreamEvent, hval, h, h3]
    · rw [core.1]; exact addEvent_events ctx.transcript e
    · rw [core.2.1]; exact addEvent_ended_at ctx.transcript e
    · rw [core.2.2]; exact addEvent_ended_reason ctx.transcript e
  · exact absurd h hnd

/-- Helper: a validated error event is appended, the transcript is marked
ended_reason "error", and a QernelAPIError carrying that snapshot is
raised. -/
theorem process_error_step (prims : DecodePrims) (now : Nat) (ctx : RunContext)
    (d : JDict) (e : StreamEvent) (hv : streamEventValidate d = some e)
    (he : e.type = "error") :
    processStreamEvent prims now ctx (.sdict d) =
      .raisedE
        { ctx with transcript :=
            { ctx.transcript.addEvent e with ended_reason := some "error" } }
        { message := firstTruthyStr [e.message, e.error] "Unknown streaming error",
          transcript := some { ctx.transcript.addEvent e with ended_reason := some "error" } } := by
  have hval : validateOrPrintPassthrough ctx (.sdict d) = .ok (some e, ctx) := by
    simp [validateOrPrintPassthrough, hv]
  simp [processStreamEvent, hval, he, handleErrorEvent]

/-- Helper: one processing step preserves ended_at, and preserves
ended_reason except on the error-event raise, where the raised error
carries the current transcript with ended_reason "error". -/
theorem process_step_ended (prims : DecodePrims) (now : Nat) (ctx : RunContext)
    (item : StreamItem) :
    (∀ c, processStreamEvent prims now ctx item = .cont c →
      c.transcript.ended_at = ctx.transcript.ended_at ∧
      c.transcript.ended_reason = ctx.transcript.ended_reason) ∧
    (∀ c err, processStreamEvent prims now ctx item = .raisedE c err →
      err.transcript = some c.transcript ∧
      c.transcript.ended_at = ctx.transcript.ended_at ∧
      c.transcript.ended_reason = some "error") ∧
    (∀ c m, processStreamEvent prims now ctx item = .raisedPy c m →
      c.transcript.ended_at = ctx.transcript.ended_at ∧
      c.transcript.ended_reason = ctx.transcript.ended_reason) := by
  cases item with
  | sstr s =>
    refine ⟨?_, ?_, ?_⟩
    · intro c h
      simp [processStreamEvent, validateOrPrintPassthrough] at h
      rw [← h]; exact ⟨rfl, rfl⟩
    · intro c err h
      simp [processStreamEvent, validateOrPrintPassthrough] at h
    · intro c m h
      simp [processStreamEvent, validateOrPrintPassthrough] at h
  | sdict d =>
    cases hv : streamEventValidate d with
    | none =>
      have hval : validateOrPrintPassthrough ctx (.sdict d) = .error validationErrorMsg := by
        simp [validateOrPrintPassthrough, hv]
      refine ⟨?_, ?_, ?_⟩
      · intro c h; simp [processStreamEvent, hval] at h
      · intro c err h; simp [processStreamEvent, hval] at h
      · intro c m h
        simp [processStreamEvent, hval] at h
        rw [← h.1]; exact ⟨rfl, rfl⟩
    | some e =>
      have hval : validateOrPrintPassthrough ctx (.sdict d) = .ok (some e, ctx) := by
        simp [validateOrPrintPassthrough, hv]
      rcases validate_type_mem d e hv with h | h | h | h | h
      · refine ⟨?_, ?_, ?_⟩
        · intro c hc
          simp [processStreamEvent, hval, h] at hc
          rw [← hc]
          exact ⟨addEvent_ended_at ctx.transcript e, addEvent_ended_reason ctx.transcript e⟩
        · intro c err hc; simp [processStreamEvent, hval, h] at hc
        · intro c m hc; simp [processStreamEvent, hval, h] at hc
      · refine ⟨?_, ?_, ?_⟩
        · intro c hc
          simp [processStreamEvent, hval, h] at hc
          rw [← hc]
          constructor
          · rw [(handleStatus_core _ e).2.1]; exact addEvent_ended_at ctx.transcript e
          · rw [(handleStatus_core _ e).2.2]; exact addEvent_ended_reason ctx.transcript e
        · intro c err hc; simp [processStreamEvent, hval, h] at hc
        · intro c m hc; simp [processStreamEvent, hval, h] at hc
      · have hstep := process_error_step prims now ctx d e hv h
        refine ⟨?_, ?_, ?_⟩
        · intro c hc; rw [hstep] at hc; exact StepRes.noConfusion hc
        · intro c err hc
          rw [hstep] at hc
          cases hc
          refine ⟨rfl, ?_, rfl⟩
          exact addEvent_ended_at ctx.transcript e
        · intro c m hc; rw [hstep] at hc; exact StepRes.noConfusion hc
      · cases hres : handleResultEvent prims { ctx with transcript := ctx.transcript.addEvent e } e with
        | ok c3 =>
          have core := handleResult_ok_core prims _ e c3 hres
          refine ⟨?_, ?_, ?_⟩
          · intro c hc
            simp [processStreamEvent, hval, h, hres] at hc
            rw [← hc]
            constructor
            · rw [core.2.1]; exact addEvent_ended_at ctx.transcript e
            · rw [core.2.2]; exact addEvent_ended_reason ctx.transcript e
          · intro c err hc; simp [processStreamEvent, hval, h, hres] at hc
          · intro c m hc; simp [processStreamEvent, hval, h, hres] at hc
        | error msg =>
          refine ⟨?_, ?_, ?_⟩
          · intro c hc; simp [processStreamEvent, hval, h, hres] at hc
          · intro c err hc; simp [processStreamEvent, hval, h, hres] at hc
          · intro c m hc
            simp [processStreamEvent, hval, h, hres] at hc
            rw [← hc.1]
            exact ⟨addEvent_ended_at ctx.transcript e, addEvent_ended_reason ctx.transcript e⟩
      · refine ⟨?_, ?_, ?_⟩
        · intro c hc; simp [processStreamEvent, hval, h] at hc
        · intro c err hc; simp [processStreamEvent, hval, h] at hc
        · intro c m hc; simp [processStreamEvent, hval, h] at hc

/-- Helper: draining a prefix of validated non-terminal merge-safe
events folds exactly those events and continues with the rest. -/
theorem drain_quiet_prefix (prims : DecodePrims) (now : Nat) (post : List StreamItem) :
    ∀ (ds : List JDict) (es : List StreamEvent) (ctx : RunContext),
      List.Forall₂ (fun d e => streamEventValidate d = some e) ds es →
      (∀ e ∈ es, e.type ≠ "done" ∧ e.type ≠ "error" ∧ MergeSafe e) →
      ∃ c, drainStreamEvents prims now ctx (ds.map StreamItem.sdict ++ post) =
            drainStreamEvents prims now c post ∧
        c.transcript.events = ctx.transcript.events ++ es ∧
        c.transcript.ended_at = ctx.transcript.ended_at ∧
        c.transcript.ended_reason = ctx.transcript.ended_reason := by
  intro ds es ctx hf
  induction hf generalizing ctx with
  | nil => intro hq; exact ⟨ctx, rfl, by simp, rfl, rfl⟩
  | @cons d e tl1 tl2 hde hrest ih =>
    intro hq
    obtain ⟨hnd, hne, hms⟩ := hq e (List.mem_cons_self e tl2)
    obtain ⟨c1, hc1, hev, hat, hre⟩ := process_quiet_step prims now ctx d e hde hnd hne hms
    obtain ⟨c2, hc2, hev2, hat2, hre2⟩ :=
      ih c1 (fun e2 he2 => hq e2 (List.mem_cons_of_mem e he2))
    refine ⟨c2, ?_, ?_, ?_, ?_⟩
    · have hstep : drainStreamEvents prims now ctx ((d :: tl1).map StreamItem.sdict ++ post) =
        drainStreamEvents prims now c1 (tl1.map StreamItem.sdict ++ post) := by
        simp only [List.map_cons, List.cons_append, drainStreamEvents, hc1]
        rfl
      rw [hstep, hc2]
    · rw [hev2, hev]; simp
    · rw [hat2, hat]
    · rw [hre2, hre]

/-- C3: for an event sequence whose first terminal event is an error
event after k folded non-terminal events (the spec's stream invariant
allows no earlier terminal event; merge-safety excludes the separately
reported dict(summary) crash), nothing after the error event is folded
and the call raises a QernelAPIError whose transcript snapshot has
ended_reason "error" and exactly k+1 events. -/
theorem C3_fail_fast (prims : DecodePrims) (now : Nat) (dpre : List JDict)
    (epre : List StreamEvent) (dErr : JDict) (eErr : StreamEvent)
    (rest : List StreamItem)
    (hf : List.Forall₂ (fun d e => streamEventValidate d = some e) dpre epre)
    (hq : ∀ e ∈ epre, e.type ≠ "done" ∧ e.type ≠ "error" ∧ MergeSafe e)
    (hve : streamEventValidate dErr = some eErr) (he : eErr.type = "error") :
    ∃ err snap,
      runStreamWithHandler prims now
        (dpre.map StreamItem.sdict ++ StreamItem.sdict dErr :: rest) = .error err ∧
      err.transcript = some snap ∧
      snap.ended_reason = some "error" ∧
      snap.events = epre ++ [eErr] ∧
      snap.events.length = dpre.length + 1 := by
  obtain ⟨c, hdrain, hev, hat, hre⟩ := drain_quiet_prefix prims now
    (StreamItem.sdict dErr :: rest) dpre epre {} hf hq
  have hstep := process_error_step prims now c dErr eErr hve he
  have hdrain2 : drainStreamEvents prims now c (StreamItem.sdict dErr :: rest) =
      .apiError
        { c with transcript := { c.transcript.addEvent eErr with ended_reason := some "error" } }
        { message := firstTruthyStr [eErr.message, eErr.error] "Unknown streaming error",
          transcript := some { c.transcript.addEvent eErr with ended_reason := some "error" } } := by
    simp only [drainStreamEvents, hstep]
  have hrun : runStreamWithHandler prims now
      (dpre.map StreamItem.sdict ++ StreamItem.sdict dErr :: rest) =
      .error { message := firstTruthyStr [eErr.message, eErr.error] "Unknown streaming error",
               transcript := some { c.transcript.addEvent eErr with ended_reason := some "error" } } := by
    simp only [runStreamWithHandler]
    rw [hdrain, hdrain2]
  refine ⟨_, _, hrun, rfl, rfl, ?_, ?_⟩
  · show (c.transcript.addEvent eErr).events = epre ++ [eErr]
    rw [addEvent_events, hev]
    simp
  · show (c.transcript.addEvent eErr).events.length = dpre.length + 1
    rw [addEvent_events, hev]
    simp [List.Forall₂.length_eq hf]

/-- Helper: starting from a fresh transcript, a drain that raises from an
error event carries a snapshot with ended_reason "error" and ended_at
still None, and a drain that raises a wrapped Python error does so from a
state with both termination fields still None. -/
theorem drain_error_snapshot (prims : DecodePrims) (now : Nat) :
    ∀ (items : List StreamItem) (ctx : RunContext),
      ctx.transcript.ended_at = none → ctx.transcript.ended_reason = none →
      (∀ c err, drainStreamEvents prims now ctx items = .apiError c err →
        ∃ snap, err.transcript = some snap ∧ snap.ended_at = none ∧
          snap.ended_reason = some "error") ∧
      (∀ c m, drainStreamEvents prims now ctx items = .pyError c m →
        c.transcript.ended_at = none ∧ c.transcript.ended_reason = none) := by
  intro items
  induction items with
  | nil =>
    intro ctx h1 h2
    constructor
    · intro c err h; exact DrainRes.noConfusion h
    · intro c m h; exact DrainRes.noConfusion h
  | cons item rest ih =>
    intro ctx h1 h2
    have hstep := process_step_ended prims now ctx item
    cases hp : processStreamEvent prims now ctx item with
    | cont c1 =>
      have hcore := hstep.1 c1 hp
      have hdrain : drainStreamEvents prims now ctx (item :: rest) =
          drainStreamEvents prims now c1 rest := by
        simp only [drainStreamEvents, hp]
      obtain ⟨ih1, ih2⟩ := ih c1 (hcore.1.trans h1) (hcore.2.trans h2)
      constructor
      · intro c err h; rw [hdrain] at h; exact ih1 c err h
      · intro c m h; rw [hdrain] at h; exact ih2 c m h
    | stop c1 =>
      have hdrain : drainStreamEvents prims now ctx (item :: rest) = .finished c1 := by
        simp only [drainStreamEvents, hp]
      constructor
      · intro c err h; rw [hdrain] at h; exact DrainRes.noConfusion h
      · intro c m h; rw [hdrain] at h; exact DrainRes.noConfusion h
    | raisedE c1 e1 =>
      have hcore := hstep.2.1 c1 e1 hp
      have hdrain : drainStreamEvents prims now ctx (item :: rest) = .apiError c1 e1 := by
        simp only [drainStreamEvents, hp]
      constructor
      · intro c err h
        rw [hdrain] at h
        cases h
        exact ⟨c1.transcript, hcore.1, hcore.2.1.trans h1, hcore.2.2⟩
      · intro c m h; rw [hdrain] at h; exact DrainRes.noConfusion h
    | raisedPy c1 m1 =>
      have hcore := hstep.2.2 c1 m1 hp
      have hdrain : drainStreamEvents prims now ctx (item :: rest) = .pyError c1 m1 := by
        simp only [drainStreamEvents, hp]
      constructor
      · intro c err h; rw [hdrain] at h; exact DrainRes.noConfusion h
      · intro c m h
        rw [hdrain] at h
        cases h
        exact ⟨hcore.1.trans h1, hcore.2.trans h2⟩

/-- C10: whenever run_stream_with_handler raises with a snapshot whose
ended_reason is "error" (the error-event path), that snapshot's ended_at
is null: the snapshot is serialized at raise time, before the exception
path stamps ended_at on the live transcript only. -/
theorem C10_error_snapshot (prims : DecodePrims) (now : Nat)
    (items : List StreamItem) (err : QernelAPIErrorE) (snap : AlgorithmTranscript)
    (hrun : runStreamWithHandler prims now items = .error err)
    (htr : err.transcript = some snap) (hre : snap.ended_reason = some "error") :
    snap.ended_at = none := by
  have hinv := drain_error_snapshot prims now items {} rfl rfl
  simp only [runStreamWithHandler] at hrun
  cases hd : drainStreamEvents prims now {} items with
  | finished c =>
    rw [hd] at hrun
    exact Except.noConfusion hrun
  | apiError c e =>
    rw [hd] at hrun
    injection hrun with he
    subst he
    obtain ⟨snap2, hs2, hat2, hre2⟩ := hinv.1 c e hd
    rw [htr] at hs2
    cases hs2
    exact hat2
  | pyError c m =>
    rw [hd] at hrun
    have hend := hinv.2 c m hd
    injection hrun with he
    subst he
    dsimp only at htr
    rw [hend.1] at htr
    simp only [reduceIte] at htr
    cases htr
    dsimp only at hre
    rw [hend.2] at hre
    exact Option.noConfusion hre

/-- C3 witness: the theorem applied to the concrete stream start, error. -/
theorem C3_fail_fast_witness :
    streamEventValidate errD = some errEv ∧
    (runErrTranscript (runStreamWithHandler trivialPrims 7
      [StreamItem.sdict startD, StreamItem.sdict errD])).map
        (fun t => (t.ended_reason, t.events.length)) = some (some "error", 2) := by
  have h := C3_fail_fast trivialPrims 7 [startD] [startEv] errD errEv []
    (List.Forall₂.cons rfl List.Forall₂.nil)
    (by
      intro e he
      have he2 : e = startEv := by simpa using he
      subst he2
      exact ⟨by decide, by decide, fun r hr => Option.noConfusion hr⟩)
    rfl rfl
  obtain ⟨err, snap, hrun, htr, hre, hev, hlen⟩ := h
  have hrun2 : runStreamWithHandler trivialPrims 7
      [StreamItem.sdict startD, StreamItem.sdict errD] = .error err := hrun
  refine ⟨rfl, ?_⟩
  rw [hrun2]
  simp [runErrTranscript, htr, hre, hlen]

/-- C10 witness: the theorem applied to the concrete single-error-event
stream, whose snapshot is c10Snap. -/
theorem C10_error_snapshot_witness :
    c10Snap.ended_reason = some "error" ∧ c10Snap.ended_at = none :=
  ⟨rfl, C10_error_snapshot trivialPrims 7 [StreamItem.sdict errD] c10Err c10Snap
    rfl rfl rfl⟩


/-- Helper: against a permanently retryable origin, the SSE connect loop
reaches the timeout branch within ceil(2*(remaining)) further iterations,
never sleeping more than the current backoff, whose evolution from the
entry value follows the doubling-capped-at-10 chain. -/
theorem connectSSE_timeout (T : ℚ) (att : Nat → ℚ → AttemptOutcome)
    (hatt : AllRetryable att) :
    ∀ (k : Nat) (clock backoff : ℚ) (n : Nat) (sleeps : List (ℚ × ℚ)),
      Nat.ceil (2 * (T - clock)) ≤ k → (1/2 : ℚ) ≤ backoff →
      ∃ (m : Nat) (ext : List (ℚ × ℚ)),
        connectSSEWithRetry T att (k + 1) clock backoff n sleeps =
          some (.timedOut "Streaming request timed out while warming up origin"
            ⟨m, sleeps.reverse ++ ext⟩) ∧
        m ≤ n + k ∧ backoffChain 10 backoff ext := by
  intro k
  induction k with
  | zero =>
    intro clock backoff n sleeps hk hb
    have hr : T - clock ≤ 0 := by
      have h0 : Nat.ceil (2 * (T - clock)) = 0 := Nat.le_zero.mp hk
      have h1 : 2 * (T - clock) ≤ 0 := Nat.ceil_eq_zero.mp h0
      linarith
    refine ⟨n, [], ?_, by omega, trivial⟩
    simp [connectSSEWithRetry, hr]
  | succ k ih =>
    intro clock backoff n sleeps hk hb
    by_cases hr : T - clock ≤ 0
    · refine ⟨n, [], ?_, by omega, trivial⟩
      simp [connectSSEWithRetry, hr]
    · push_neg at hr
      obtain ⟨d, hd, hd0⟩ := hatt n (T - clock)
      have hsleep : (1/2 : ℚ) ≤ min backoff (max (1/2 : ℚ) (T - clock)) :=
        le_min hb (le_max_left _ _)
      have hbac2 : (1/2 : ℚ) ≤ min (backoff * 2) 10 := by
        apply le_min
        · linarith
        · norm_num
      have hkk : Nat.ceil (2 * (T - (clock + d +
          min backoff (max (1/2 : ℚ) (T - clock))))) ≤ k := by
        set s := min backoff (max (1/2 : ℚ) (T - clock)) with hs
        have hstep : 2 * (T - (clock + d + s)) ≤ 2 * (T - clock) - 1 := by
          have : (1/2 : ℚ) ≤ s := hsleep
          nlinarith
        by_cases hy : 2 * (T - (clock + d + s)) ≤ 0
        · have : Nat.ceil (2 * (T - (clock + d + s))) = 0 := Nat.ceil_eq_zero.mpr hy
          omega
        · push_neg at hy
          have hx1 : (0 : ℚ) ≤ 2 * (T - clock) - 1 := by linarith
          have hceil1 : Nat.ceil ((2 * (T - clock) - 1) + 1) =
              Nat.ceil (2 * (T - clock) - 1) + 1 := Nat.ceil_add_one hx1
          have hceil2 : Nat.ceil (2 * (T - (clock + d + s))) ≤
              Nat.ceil (2 * (T - clock) - 1) := Nat.ceil_mono hstep
          have hfix : (2 * (T - clock) - 1) + 1 = 2 * (T - clock) := by ring
          rw [hfix] at hceil1
          omega
      obtain ⟨m, ext, heq, hm, hchain⟩ := ih (clock + d +
          min backoff (max (1/2 : ℚ) (T - clock)))
        (min (backoff * 2) 10) (n + 1)
        ((backoff, min backoff (max (1/2 : ℚ) (T - clock))) :: sleeps) hkk hbac2
      refine ⟨m, (backoff, min backoff (max (1/2 : ℚ) (T - clock))) :: ext, ?_,
        by omega, ?_⟩
      · rw [connectSSEWithRetry]
        dsimp only
        rw [if_neg (by linarith), hd]
        dsimp only
        rw [heq]
        simp
      · exact ⟨rfl, min_le_left _ _, hchain⟩

/-- Helper: the artifact-download retry loop analog of
connectSSE_timeout, with a caller-supplied backoff cap of at least the
minimum sleep. -/
theorem getWRUD_timeout (D cfgT mb : ℚ) (att : Nat → ℚ → AttemptOutcome)
    (hatt : AllRetryable att) (hmb : (1/2 : ℚ) ≤ mb) :
    ∀ (k : Nat) (clock backoff : ℚ) (n : Nat) (sleeps : List (ℚ × ℚ)),
      Nat.ceil (2 * (D - clock)) ≤ k → (1/2 : ℚ) ≤ backoff →
      ∃ (m : Nat) (ext : List (ℚ × ℚ)),
        getWithRetryUntilDeadline D cfgT mb att (k + 1) clock backoff n sleeps =
          some (.timedOut "Artifact download timed out while warming up origin"
            ⟨m, sleeps.reverse ++ ext⟩) ∧
        m ≤ n + k ∧ backoffChain mb backoff ext := by
  intro k
  induction k with
  | zero =>
    intro clock backoff n sleeps hk hb
    have hr : D - clock ≤ 0 := by
      have h0 : Nat.ceil (2 * (D - clock)) = 0 := Nat.le_zero.mp hk
      have h1 : 2 * (D - clock) ≤ 0 := Nat.ceil_eq_zero.mp h0
      linarith
    refine ⟨n, [], ?_, by omega, trivial⟩
    simp [getWithRetryUntilDeadline, hr]
  | succ k ih =>
    intro clock backoff n sleeps hk hb
    by_cases hr : D - clock ≤ 0
    · refine ⟨n, [], ?_, by omega, trivial⟩
      simp [getWithRetryUntilDeadline, hr]
    · push_neg at hr
      obtain ⟨d, hd, hd0⟩ := hatt n (max (min (D - clock) (max cfgT 60)) 1)
      have hsleep : (1/2 : ℚ) ≤ min backoff (max (1/2 : ℚ) (D - clock)) :=
        le_min hb (le_max_left _ _)
      have hbac2 : (1/2 : ℚ) ≤ min (backoff * 2) mb := by
        apply le_min
        · linarith
        · exact hmb
      have hkk : Nat.ceil (2 * (D - (clock + d +
          min backoff (max (1/2 : ℚ) (D - clock))))) ≤ k := by
        set s := min backoff (max (1/2 : ℚ) (D - clock)) with hs
        have hstep : 2 * (D - (clock + d + s)) ≤ 2 * (D - clock) - 1 := by
          have : (1/2 : ℚ) ≤ s := hsleep
          nlinarith
        by_cases hy : 2 * (D - (clock + d + s)) ≤ 0
        · have : Nat.ceil (2 * (D - (clock + d + s))) = 0 := Nat.ceil_eq_zero.mpr hy
          omega
        · push_neg at hy
          have hx1 : (0 : ℚ) ≤ 2 * (D - clock) - 1 := by linarith
          have hceil1 : Nat.ceil ((2 * (D - clock) - 1) + 1) =
              Nat.ceil (2 * (D - clock) - 1) + 1 := Nat.ceil_add_one hx1
          have hceil2 : Nat.ceil (2 * (D - (clock + d + s))) ≤
              Nat.ceil (2 * (D - clock) - 1) := Nat.ceil_mono hstep
          have hfix : (2 * (D - clock) - 1) + 1 = 2 * (D - clock) := by ring
          rw [hfix] at hceil1
          omega
      obtain ⟨m, ext, heq, hm, hchain⟩ := ih (clock + d +
          min backoff (max (1/2 : ℚ) (D - clock)))
        (min (backoff * 2) mb) (n + 1)
        ((backoff, min backoff (max (1/2 : ℚ) (D - clock))) :: sleeps) hkk hbac2
      refine ⟨m, (backoff, min backoff (max (1/2 : ℚ) (D - clock))) :: ext, ?_,
        by omega, ?_⟩
      · rw [getWithRetryUntilDeadline]
        dsimp only
        rw [if_neg (by linarith), hd]
        dsimp only
        rw [heq]
        simp
      · exact ⟨rfl, min_le_left _ _, hchain⟩

/-- Helper: a finished SSE retry loop gives the same result with one
more unit of fuel. -/
theorem connectSSE_fuel_stable (T : ℚ) (att : Nat → ℚ → AttemptOutcome) :
    ∀ (fuel : Nat) (clock backoff : ℚ) (n : Nat) (sleeps : List (ℚ × ℚ))
      (r : RetryResult),
      connectSSEWithRetry T att fuel clock backoff n sleeps = some r →
      connectSSEWithRetry T att (fuel + 1) clock backoff n sleeps = some r := by
  intro fuel
  induction fuel with
  | zero => intro clock backoff n sleeps r h; exact Option.noConfusion h
  | succ f ih =>
    intro clock backoff n sleeps r h
    rw [connectSSEWithRetry] at h ⊢
    dsimp only at h ⊢
    by_cases hr : T - clock ≤ 0
    · rw [if_pos hr] at h ⊢; exact h
    · rw [if_neg hr] at h ⊢
      cases ha : att n (T - clock) with
      | ok d => rw [ha] at h; dsimp only at h ⊢; exact h
      | fatal d st b => rw [ha] at h; dsimp only at h ⊢; exact h
      | retryable d =>
        rw [ha] at h
        dsimp only at h ⊢
        exact ih _ _ _ _ r h

/-- Helper: a finished download retry loop gives the same result with
one more unit of fuel. -/
theorem getWRUD_fuel_stable (D cfgT mb : ℚ) (att : Nat → ℚ → AttemptOutcome) :
    ∀ (fuel : Nat) (clock backoff : ℚ) (n : Nat) (sleeps : List (ℚ × ℚ))
      (r : RetryResult),
      getWithRetryUntilDeadline D cfgT mb att fuel clock backoff n sleeps = some r →
      getWithRetryUntilDeadline D cfgT mb att (fuel + 1) clock backoff n sleeps = some r := by
  intro fuel
  induction fuel with
  | zero => intro clock backoff n sleeps r h; exact Option.noConfusion h
  | succ f ih =>
    intro clock backoff n sleeps r h
    rw [getWithRetryUntilDeadline] at h ⊢
    dsimp only at h ⊢
    by_cases hr : D - clock ≤ 0
    · rw [if_pos hr] at h ⊢; exact h
    · rw [if_neg hr] at h ⊢
      cases ha : att n (max (min (D - clock) (max cfgT 60)) 1) with
      | ok d => rw [ha] at h; dsimp only at h ⊢; exact h
      | fatal d st b => rw [ha] at h; dsimp only at h ⊢; exact h
      | retryable d =>
        rw [ha] at h
        dsimp only at h ⊢
        exact ih _ _ _ _ r h

/-- Helper: a finished SSE retry loop gives the same result with any
additional fuel. -/
theorem connectSSE_fuel_add (T : ℚ) (att : Nat → ℚ → AttemptOutcome)
    (fuel extra : Nat) (clock backoff : ℚ) (n : Nat) (sleeps : List (ℚ × ℚ))
    (r : RetryResult)
    (h : connectSSEWithRetry T att fuel clock backoff n sleeps = some r) :
    connectSSEWithRetry T att (fuel + extra) clock backoff n sleeps = some r := by
  induction extra with
  | zero => exact h
  | succ e ih => exact connectSSE_fuel_stable T att (fuel + e) _ _ _ _ r ih

/-- Helper: a finished download retry loop gives the same result with
any additional fuel. -/
theorem getWRUD_fuel_add (D cfgT mb : ℚ) (att : Nat → ℚ → AttemptOutcome)
    (fuel extra : Nat) (clock backoff : ℚ) (n : Nat) (sleeps : List (ℚ × ℚ))
    (r : RetryResult)
    (h : getWithRetryUntilDeadline D cfgT mb att fuel clock backoff n sleeps = some r) :
    getWithRetryUntilDeadline D cfgT mb att (fuel + extra) clock backoff n sleeps = some r := by
  induction extra with
  | zero => exact h
  | succ e ih => exact getWRUD_fuel_stable D cfgT mb att (fuel + e) _ _ _ _ r ih

/-- C5: when every attempt of either retry loop yields a retryable
outcome (HTTP 502/503/504 or a transport exception) with nonnegative
duration, the loop makes at most ceil(2*T) attempts and fails with the
timeout-class QernelAPIError raised at the top of the iteration whose
remaining time is at most zero; every sleep is bounded by the current
backoff, which doubles up to the fixed cap; and the result is independent
of any extra fuel, so the unbounded loop never runs forever. -/
theorem C5_retry_terminates (T D cfgT ib mb : ℚ)
    (attS attG : Nat → ℚ → AttemptOutcome)
    (hS : AllRetryable attS) (hG : AllRetryable attG) (hmb : (1/2 : ℚ) ≤ mb) :
    (∃ m ext,
      connectSSEWithRetry T attS (Nat.ceil (2 * T) + 1) 0 2 0 [] =
        some (.timedOut "Streaming request timed out while warming up origin"
          ⟨m, ext⟩) ∧
      m ≤ Nat.ceil (2 * T) ∧ backoffChain 10 2 ext ∧
      (∀ extra, connectSSEWithRetry T attS (Nat.ceil (2 * T) + 1 + extra) 0 2 0 [] =
        connectSSEWithRetry T attS (Nat.ceil (2 * T) + 1) 0 2 0 [])) ∧
    (∃ m ext,
      getWithRetryUntilDeadline D cfgT mb attG (Nat.ceil (2 * D) + 1) 0
          (max (1/2) ib) 0 [] =
        some (.timedOut "Artifact download timed out while warming up origin"
          ⟨m, ext⟩) ∧
      m ≤ Nat.ceil (2 * D) ∧ backoffChain mb (max (1/2) ib) ext ∧
      (∀ extra, getWithRetryUntilDeadline D cfgT mb attG
          (Nat.ceil (2 * D) + 1 + extra) 0 (max (1/2) ib) 0 [] =
        getWithRetryUntilDeadline D cfgT mb attG (Nat.ceil (2 * D) + 1) 0
          (max (1/2) ib) 0 [])) := by
  constructor
  · have hk : Nat.ceil (2 * (T - 0)) ≤ Nat.ceil (2 * T) := by rw [sub_zero]
    obtain ⟨m, ext, heq, hm, hchain⟩ := connectSSE_timeout T attS hS
      (Nat.ceil (2 * T)) 0 2 0 [] hk (by norm_num)
    have heq2 : connectSSEWithRetry T attS (Nat.ceil (2 * T) + 1) 0 2 0 [] =
        some (.timedOut "Streaming request timed out while warming up origin"
          ⟨m, ext⟩) := by simpa using heq
    refine ⟨m, ext, heq2, by omega, hchain, ?_⟩
    intro extra
    rw [connectSSE_fuel_add T attS (Nat.ceil (2 * T) + 1) extra 0 2 0 [] _ heq2, heq2]
  · have hk : Nat.ceil (2 * (D - 0)) ≤ Nat.ceil (2 * D) := by rw [sub_zero]
    obtain ⟨m, ext, heq, hm, hchain⟩ := getWRUD_timeout D cfgT mb attG hG hmb
      (Nat.ceil (2 * D)) 0 (max (1/2) ib) 0 [] hk (le_max_left _ _)
    have heq2 : getWithRetryUntilDeadline D cfgT mb attG (Nat.ceil (2 * D) + 1) 0
        (max (1/2) ib) 0 [] =
        some (.timedOut "Artifact download timed out while warming up origin"
          ⟨m, ext⟩) := by simpa using heq
    refine ⟨m, ext, heq2, by omega, hchain, ?_⟩
    intro extra
    rw [getWRUD_fuel_add D cfgT mb attG (Nat.ceil (2 * D) + 1) extra 0
      (max (1/2) ib) 0 [] _ heq2, heq2]

/-- C5 witness: the theorem applied to a 1-second budget against an
always-503 oracle, for both loops. -/
theorem C5_witness :
    AllRetryable constRetryAtt ∧
    retryIsTimeout (connectSSEWithRetry 1 constRetryAtt
      (Nat.ceil (2 * (1 : ℚ)) + 1) 0 2 0 []) = true ∧
    retryIsTimeout (getWithRetryUntilDeadline 1 60 10 constRetryAtt
      (Nat.ceil (2 * (1 : ℚ)) + 1) 0 (max (1/2) 2) 0 []) = true := by
  have hall : AllRetryable constRetryAtt := fun n t => ⟨0, rfl, le_refl 0⟩
  have h := C5_retry_terminates 1 1 60 2 10 constRetryAtt constRetryAtt hall hall
    (by norm_num)
  obtain ⟨⟨m, ext, heq, _, _, _⟩, ⟨m2, ext2, heq2, _, _, _⟩⟩ := h
  refine ⟨hall, ?_, ?_⟩
  · rw [heq]; rfl
  · rw [heq2]; rfl

end Qernel
